import Mathlib

/-!
Verification development for the IOS-XE Upgrade Manager.

This file gives a shallow embedding, in Lean 4, of the parts of the
program that the specification claims talk about:

* the pre-check engine (app/utils/precheck_engine.py): version parsing and
  comparison, disk-space grading;
* the copy and verify pipeline phases (app/blueprints/copy_image.py,
  app/blueprints/verify_image.py), including the chaining of the verify
  phase after a successful copy and the local-variable bug in the verify
  mismatch branch;
* the background scheduler sweep (main.py, run_scheduler) and the entry of
  the upgrade worker (app/blueprints/upgrade.py, execute_upgrade);
* the interactive command loop (app/utils/ssh_client.py,
  execute_command_stream);
* device discovery (app/blueprints/discovery.py, discover_devices) and the
  device-role classifier (app/utils/netconf_client.py).

Modelling conventions: machine integers and Python floats are modelled as
Int and Rat; timestamps are instants measured in seconds as Int; SQLite
NULL and Python None are modelled as Option; the side effects of one
execution (job-status updates, inventory updates) are collected into
explicit traces.  Database point writes are assumed to succeed; the
sqlite error paths of the model layer, which only print and return False,
are outside the model.
-/

namespace IOSXE

/-! ## Character-list helpers

Python string primitives used by the embedded code, modelled on lists of
characters (ASCII behaviour, which covers every string the program
manipulates: versions, filenames, statuses, hex digests). -/

/-- Lower-casing of one ASCII character. -/
def lowerChar (c : Char) : Char :=
  if 65 ≤ c.toNat && c.toNat ≤ 90 then Char.ofNat (c.toNat + 32) else c

/-- Upper-casing of one ASCII character. -/
def upperChar (c : Char) : Char :=
  if 97 ≤ c.toNat && c.toNat ≤ 122 then Char.ofNat (c.toNat - 32) else c

/-- Python str.lower on a character list. -/
def lowerL (cs : List Char) : List Char := cs.map lowerChar

/-- Python str.upper on a character list. -/
def upperL (cs : List Char) : List Char := cs.map upperChar

/-- Suffix test on character lists, as Python str.endswith. -/
def endsWithL (s p : List Char) : Bool :=
  s.drop (s.length - p.length) == p

/-- Prefix test on character lists. -/
def startsWithL : List Char → List Char → Bool
  | [], _ => true
  | _ :: _, [] => false
  | a :: as_, b :: bs => a == b && startsWithL as_ bs

/-- Substring containment, as the Python in operator on strings. -/
def containsSub (p : List Char) : List Char → Bool
  | [] => p.isEmpty
  | c :: cs => startsWithL p (c :: cs) || containsSub p cs

/-- ASCII whitespace, the characters removed by Python str.strip. -/
def isSpaceChar (c : Char) : Bool :=
  c == ' ' || c == '\t' || c == '\n' || c == '\r' ||
  c == Char.ofNat 11 || c == Char.ofNat 12

/-- Python str.strip on a character list. -/
def stripL (cs : List Char) : List Char :=
  ((cs.dropWhile isSpaceChar).reverse.dropWhile isSpaceChar).reverse

/-! ## Pre-check results (precheck_engine.py)

A graded result appended by one rule of the pre-check engine.  Messages
are free text built from the inputs and are not needed by any claim, so
the embedding keeps the check name and the grade. -/

inductive Grade where
  | PASS
  | WARN
  | FAIL
  | ERROR
deriving DecidableEq, Repr

structure CheckResult where
  check_name : String
  result : Grade
deriving DecidableEq, Repr

namespace PreCheckEngine

/-! ### Version parsing (precheck_engine.py, _parse_version)

The source cleans the string with re.sub removing a trailing
".bin", ".spa" or ".pkg" (case-insensitive), then takes the leftmost
match of the pattern digits ( dot digits )+ and splits it on dots into
integers.  The regex search is modelled exactly: at each start position,
a maximal run of digits must be followed by at least one group of a dot
and a maximal run of digits; the leftmost position with a match wins. -/

/-- Maximal run of decimal digits at the head of the character list,
returned together with the remaining characters. -/
def takeDigits : List Char → List Char × List Char
  | [] => ([], [])
  | c :: cs =>
    if c.isDigit then
      let (d, r) := takeDigits cs
      (c :: d, r)
    else ([], c :: cs)

/-- Numeric value of a digit run, as Python int() of the digit string. -/
def digitsVal (ds : List Char) : Nat :=
  ds.foldl (fun a c => 10 * a + (c.toNat - 48)) 0

/-- Greedy repetition of ( dot digits ) groups, as matched by the
regex part (?:\.\d+)+ after the leading digit run.  The fuel argument
bounds the recursion; it is instantiated with the length of the input,
which always suffices because each step consumes at least two characters. -/
def dotGroups : Nat → List Char → List (List Char) × List Char
  | 0, cs => ([], cs)
  | fuel + 1, cs =>
    match cs with
    | '.' :: rest =>
      let (d, r) := takeDigits rest
      if d.isEmpty then ([], cs)
      else
        let (gs, r2) := dotGroups fuel r
        (d :: gs, r2)
    | _ => ([], cs)

/-- Match of the whole version pattern at the current position: a digit
run followed by at least one dot-digits group.  Returns the numeric
components of the match. -/
def matchVersionAt (cs : List Char) : Option (List Nat) :=
  let (d, r) := takeDigits cs
  if d.isEmpty then none
  else
    match dotGroups r.length r with
    | ([], _) => none
    | (gs, _) => some ((d :: gs).map digitsVal)

/-- Leftmost match of the version pattern: re.search tries every start
position from the left. -/
def searchVersion : List Char → Option (List Nat)
  | [] => none
  | c :: cs =>
    match matchVersionAt (c :: cs) with
    | some ns => some ns
    | none => searchVersion cs

/-- Removal of one trailing image-file suffix, as the case-insensitive
re.sub with an end anchor in the source. -/
def stripImageSuffix (cs : List Char) : List Char :=
  let l := lowerL cs
  if endsWithL l ".bin".toList || endsWithL l ".spa".toList ||
      endsWithL l ".pkg".toList then
    cs.take (cs.length - 4)
  else cs

/-- Embedding of _parse_version: clean the string, search for the
leftmost digits(.digits)+ pattern, return its integer components, or the
empty list when there is no match. -/
def parse_version (version_str : String) : List Nat :=
  match searchVersion (stripImageSuffix version_str.toList) with
  | some ns => ns
  | none => []

/-- Python comparison of two integer lists: lexicographic, with a proper
prefix smaller than the longer list. -/
def pylistLt : List Nat → List Nat → Bool
  | [], [] => false
  | [], _ :: _ => true
  | _ :: _, [] => false
  | a :: as_, b :: bs =>
    if a < b then true
    else if b < a then false
    else pylistLt as_ bs

/-- Embedding of _check_version_difference: the list of results the rule
appends (always exactly one).  Branch order follows the source: the
string-equality fallback when either parse is empty, then equality,
then the downgrade test, then the upgrade case. -/
def check_version_difference (current_version target_version : String) :
    List CheckResult :=
  let curr_ver := parse_version current_version
  let tgt_ver := parse_version target_version
  if curr_ver.isEmpty || tgt_ver.isEmpty then
    if current_version.toList == target_version.toList then
      [{ check_name := "Version Comparison", result := .FAIL }]
    else
      [{ check_name := "Version Comparison", result := .PASS }]
  else if curr_ver = tgt_ver then
    [{ check_name := "Version Comparison", result := .FAIL }]
  else if pylistLt tgt_ver curr_ver then
    [{ check_name := "Version Comparison", result := .WARN }]
  else
    [{ check_name := "Version Comparison", result := .PASS }]

/-! ### Disk-space grading (precheck_engine.py, _evaluate_disk_space and
the NETCONF branch of _check_disk_space) -/

/-- Embedding of _evaluate_disk_space for a present filesystem record:
with a known positive image size, FAIL when the available megabytes are
below twice the image size and PASS otherwise; with the size unknown,
WARN below one gigabyte and PASS otherwise.  Sizes are rationals,
available space in gigabytes and the image size in megabytes, as in the
source. -/
def evaluate_disk_space (available_gb target_image_size_mb : ℚ) :
    List CheckResult :=
  let available_mb := available_gb * 1024
  let required_mb := target_image_size_mb * 2
  if 0 < target_image_size_mb then
    if available_mb < required_mb then
      [{ check_name := "Disk Space Thresholds", result := .FAIL }]
    else
      [{ check_name := "Disk Space Thresholds", result := .PASS }]
  else
    if available_gb < 1 then
      [{ check_name := "Disk Space Thresholds", result := .WARN }]
    else
      [{ check_name := "Disk Space Thresholds", result := .PASS }]

/-- Wrapper for the missing-record branch of _evaluate_disk_space: with
no filesystem information the rule grades ERROR. -/
def evaluate_disk_space_opt (fs_info : Option ℚ) (target_image_size_mb : ℚ) :
    List CheckResult :=
  match fs_info with
  | some available_gb => evaluate_disk_space available_gb target_image_size_mb
  | none => [{ check_name := "Disk Space Thresholds", result := .ERROR }]

/-- Consolidated grade of the NETCONF branch of _check_disk_space over
the available space of each inspected filesystem: FAIL when any member
is under one gigabyte, otherwise WARN when any member is under two
gigabytes, otherwise PASS.  The target image size plays no role on this
path. -/
def netconf_disk_grade (fsAvail : List ℚ) : Grade :=
  if fsAvail.any (fun a => a < 1) then .FAIL
  else if fsAvail.any (fun a => a < 2) then .WARN
  else .PASS

end PreCheckEngine

/-! ## Job records and status writes

The jobs table (app/database/models.py) stores a status string per job.
The specification names seven admissible values.  The embedding records,
for one execution of a pipeline phase, the ordered list of status values
written to the job record, together with the inventory updates performed
for the device. -/

/-- The seven job-status values admitted by the specification. -/
def allowed_job_status (s : String) : Bool :=
  s == "Pending" || s == "Scheduled" || s == "Running" || s == "Success" ||
  s == "Failed" || s == "Cancelled" || s == "Missed"

/-- Observable effects of one phase execution on its own job record and
on the device inventory row: job-status writes in order, writes to the
image_copied and image_verified columns in order, whether the phase ran
the chained verify phase, whether it exited through the generic except
handler after the read of the unassigned local variable result, and
whether an exception escaped to the caller. -/
structure Trace where
  statusWrites : List String
  copiedWrites : List String
  verifiedWrites : List String
  ranVerify : Bool
  caughtUnboundLocal : Bool
  raisesToCaller : Bool
deriving DecidableEq, Repr

/-- Environment observed by one run of execute_verify_job
(app/blueprints/verify_image.py): whether the SSH connect succeeds,
whether the image file is present on flash, the expected hash found in
the repository table for the filename (None when absent), and the hash
computed on the device (None when the computation fails). -/
structure VerifyEnv where
  connectOk : Bool
  fileExists : Bool
  expectedHash : Option String
  actualHash : Option String
deriving DecidableEq, Repr

/-- Embedding of execute_verify_job.  The function first writes status
Running, then follows the branches of the source in order.  In the
hash-mismatch and hash-computation-failure branches the source then
reads the local variable result, which has only been assigned in the
match branch; that read raises UnboundLocalError, which the enclosing
except handler catches, logging and writing status Failed.  In the
match branch result is True and the job is closed with the
string COMPLETED. -/
def execute_verify_job (env : VerifyEnv) : Trace :=
  if !env.connectOk then
    { statusWrites := ["Running", "Failed"], copiedWrites := [],
      verifiedWrites := [], ranVerify := false,
      caughtUnboundLocal := false, raisesToCaller := false }
  else if !env.fileExists then
    { statusWrites := ["Running", "Failed"], copiedWrites := ["No"],
      verifiedWrites := ["Failed"], ranVerify := false,
      caughtUnboundLocal := false, raisesToCaller := false }
  else
    match env.expectedHash with
    | none =>
      { statusWrites := ["Running", "Success"], copiedWrites := [],
        verifiedWrites := ["No hash"], ranVerify := false,
        caughtUnboundLocal := false, raisesToCaller := false }
    | some expected =>
      match env.actualHash with
      | some actual =>
        if lowerL actual.toList == lowerL expected.toList then
          { statusWrites := ["Running", "COMPLETED"], copiedWrites := ["Yes"],
            verifiedWrites := ["Yes", "Yes"], ranVerify := false,
            caughtUnboundLocal := false, raisesToCaller := false }
        else
          { statusWrites := ["Running", "Failed"], copiedWrites := [],
            verifiedWrites := ["Failed"], ranVerify := false,
            caughtUnboundLocal := true, raisesToCaller := false }
      | none =>
        { statusWrites := ["Running", "Failed"], copiedWrites := [],
          verifiedWrites := ["Failed"], ranVerify := false,
          caughtUnboundLocal := true, raisesToCaller := false }

/-- Environment observed by one run of execute_copy_job
(app/blueprints/copy_image.py): SSH connect outcome, the pre-copy
existence check (logged only, never aborts), the outcome of the HTTP
transfer command, the post-copy existence check, and the environment the
chained verify phase will observe. -/
structure CopyEnv where
  connectOk : Bool
  preExists : Bool
  copySuccess : Bool
  postExists : Bool
  verifyEnv : VerifyEnv
deriving DecidableEq, Repr

/-- Embedding of execute_copy_job.  On a confirmed copy the phase sets
image_copied to Yes and image_verified to No on the device row, then
calls execute_verify_job with the same job id and returns, leaving every
further status write to the verify phase; no second job record is ever
created (job records are created only in the HTTP handlers, before the
worker starts).  Any failure writes status Failed and stops. -/
def execute_copy_job (env : CopyEnv) : Trace :=
  if !env.connectOk then
    { statusWrites := ["Running", "Failed"], copiedWrites := [],
      verifiedWrites := [], ranVerify := false,
      caughtUnboundLocal := false, raisesToCaller := false }
  else if env.copySuccess then
    if env.postExists then
      let v := execute_verify_job env.verifyEnv
      { statusWrites := "Running" :: v.statusWrites,
        copiedWrites := "Yes" :: v.copiedWrites,
        verifiedWrites := "No" :: v.verifiedWrites,
        ranVerify := true,
        caughtUnboundLocal := v.caughtUnboundLocal,
        raisesToCaller := v.raisesToCaller }
    else
      { statusWrites := ["Running", "Failed"], copiedWrites := [],
        verifiedWrites := [], ranVerify := false,
        caughtUnboundLocal := false, raisesToCaller := false }
  else
    { statusWrites := ["Running", "Failed"], copiedWrites := [],
      verifiedWrites := [], ranVerify := false,
      caughtUnboundLocal := false, raisesToCaller := false }

/-- The job data built by JobManager.start_job (app/utils/job_manager.py):
the fresh record is created with the status string RUNNING. -/
structure JobData where
  target_ip : String
  job_type : String
  target_version : Option String
  status : String
deriving DecidableEq, Repr

/-- Embedding of the record constructed in JobManager.start_job. -/
def start_job_data (target_ip job_type : String)
    (target_version : Option String) : JobData :=
  { target_ip := target_ip, job_type := job_type,
    target_version := target_version, status := "RUNNING" }

/-! ## Scheduler sweep (main.py, run_scheduler) and the upgrade worker
(app/blueprints/upgrade.py, execute_upgrade)

One sweep reads every job with status Scheduled, parses its schedule
time, and for each due job either starts a worker thread running
execute_upgrade (when the device row has a target image) or writes
status Failed (when it has none).  The sweep itself performs no other
job-table write.  Timestamps are instants in seconds; the timezone
normalisation of the source only reconciles representations of the same
instant and is absorbed by using instants directly.  A schedule_time
field is None for a NULL column and some none when
datetime.fromisoformat raises ValueError on it. -/

/-- One row of the jobs table as the sweep sees it. -/
structure JobRow where
  job_id : String
  target_ip : String
  status : String
  schedule_time : Option (Option Int)
deriving DecidableEq, Repr

/-- The inventory fields the sweep reads for a job's device. -/
structure DeviceRow where
  ip_address : String
  target_image : Option String
  device_role : String
deriving DecidableEq, Repr

/-- Python truthiness of the optional image filename the sweep resolves
from the device row. -/
def truthyStr : Option String → Bool
  | none => false
  | some s => !s.isEmpty

/-- What the sweep does with one observed Scheduled job. -/
inductive SweepAction where
  | dispatch
  | markFailed
  | skip
deriving DecidableEq, Repr

/-- Decision of the sweep body for one job: skip when the schedule time
is NULL or unparseable or not yet due; otherwise dispatch a worker when
the device row carries a target image, and write status Failed when it
does not.  The image is resolved from the device row at sweep time, not
from the job. -/
def sweepActionFor (now : Int) (row : JobRow) (device : Option DeviceRow) :
    SweepAction :=
  match row.schedule_time with
  | none => .skip
  | some none => .skip
  | some (some t) =>
    if t ≤ now then
      let image := match device with
        | some d => d.target_image
        | none => some ""
      if truthyStr image then .dispatch else .markFailed
    else .skip

/-- Lookup of a device row by address. -/
def lookupDevice (devices : List DeviceRow) (ip : String) : Option DeviceRow :=
  devices.find? (fun d => d.ip_address == ip)

/-- The snapshot the sweep queries: every row whose status is Scheduled. -/
def scheduledSnapshot (table : List JobRow) : List JobRow :=
  table.filter (fun r => r.status == "Scheduled")

/-- Job ids for which one sweep starts a worker thread. -/
def sweepDispatches (now : Int) (table : List JobRow)
    (devices : List DeviceRow) : List String :=
  ((scheduledSnapshot table).filter
    (fun r => sweepActionFor now r (lookupDevice devices r.target_ip)
      == .dispatch)).map JobRow.job_id

/-- Status writes the sweep itself performs, as job id and status pairs.
Dispatching writes nothing; only the missing-image branch writes. -/
def sweepStatusWrites (now : Int) (table : List JobRow)
    (devices : List DeviceRow) : List (String × String) :=
  (scheduledSnapshot table).filterMap
    (fun r =>
      if sweepActionFor now r (lookupDevice devices r.target_ip)
          == .markFailed then
        some (r.job_id, "Failed")
      else none)

/-- Point update of the status of one job in the table. -/
def setJobStatus (table : List JobRow) (jid status : String) : List JobRow :=
  table.map (fun r => if r.job_id == jid then { r with status := status } else r)

/-- Application of a list of status writes to the table. -/
def applyStatusWrites (table : List JobRow) :
    List (String × String) → List JobRow
  | [] => table
  | (jid, st) :: ws => applyStatusWrites (setJobStatus table jid st) ws

/-- Environment observed by one run of the upgrade worker
execute_upgrade: SSH connect outcome, the strict pre-install existence
check of the image, the best-effort configuration save, and the success
field of the install-command result (which already reclassifies a reload
disconnect as success upstream). -/
structure UpgradeEnv where
  connectOk : Bool
  fileExists : Bool
  saveOk : Bool
  installSuccess : Bool
deriving DecidableEq, Repr

/-- Job-status writes of one run of execute_upgrade, in order.  The
worker writes Running unconditionally as its first step and ends with
Success or Failed; the configuration-save outcome only changes the log. -/
def execute_upgrade_statuses (env : UpgradeEnv) : List String :=
  "Running" ::
    (if !env.connectOk then ["Failed"]
     else if !env.fileExists then ["Failed"]
     else if env.installSuccess then ["Success"]
     else ["Failed"])

/-! ## Interactive command loop (ssh_client.py, execute_command_stream)

The loop polls the channel; each time data is ready it reads a chunk,
forwards it to the callback, auto-answers any prompt pattern found in
the chunk (which neither breaks nor returns), and exits successfully
exactly when the chunk, stripped of whitespace, ends with the
command-prompt marker.  An exception while reading is caught and
reported as failure.  The environment of one execution is the sequence
of events the channel will ever produce: data chunks, or a raised
exception. -/

/-- One event on the command channel. -/
inductive ChannelEvent where
  | chunk (s : String)
  | raised
deriving DecidableEq, Repr

/-- Final behaviour of the read loop on a channel history. -/
inductive StreamOutcome where
  | completed
  | reportedFailed
  | loopsForever
deriving DecidableEq, Repr

/-- Completion test of the source: the chunk, stripped, ends with the
hash prompt marker. -/
def chunkEndsPrompt (s : String) : Bool :=
  endsWithL (stripL s.toList) "#".toList

/-- Embedding of the while-True read loop of execute_command_stream: a
chunk whose stripped text ends with the marker exits the loop with True;
a raised exception is caught and the call returns False; when the events
are exhausted without either, recv_ready never becomes true again and
the loop polls forever.  The prompt auto-reply branch writes to the
channel but neither breaks nor returns, so it does not appear in the
outcome. -/
def stream_outcome : List ChannelEvent → StreamOutcome
  | [] => .loopsForever
  | .raised :: _ => .reportedFailed
  | .chunk s :: rest =>
    if chunkEndsPrompt s then .completed else stream_outcome rest

/-! ## Device discovery (discovery.py, discover_devices)

One discovery pass over a single address, as a function of the
observable state of the device (what NETCONF and SSH return) and the
existing inventory row.  The pass builds a full device record and writes
it with INSERT OR REPLACE, which refreshes last_updated; five fields are
carried over from the existing row.  Database point writes are assumed
to succeed. -/

/-- Chassis fields extracted by NetconfClient.get_device_hardware. -/
structure HardwareInfo where
  serial_number : String
  part_number : String
  sw_version : String
deriving DecidableEq, Repr

/-- Fields extracted by NetconfClient.get_system_info. -/
structure SystemInfo where
  hostname : String
  version : String
deriving DecidableEq, Repr

/-- Fields extracted by NetconfClient.get_boot_variables; both keys are
always present in the returned dict, with Unknown as the
config-register default. -/
structure BootInfo where
  boot_system : String
  config_register : String
deriving DecidableEq, Repr

/-- Fields extracted by SSHClient.get_version_info.  The dict built by
the source has exactly these keys; in particular it has no
config-register key, so a lookup of that key always yields the supplied
default. -/
structure VersionInfo where
  version : String
  hostname : String
  serial_number : String
  model : String
  image_file : Option String
  rommon_version : String
deriving DecidableEq, Repr

/-- What NETCONF observes of the device in one pass: whether the
connection succeeds, and the results of the four getters (None for a
getter that returns no data). -/
structure NetconfObs where
  connectOk : Bool
  hardware : Option HardwareInfo
  system : Option SystemInfo
  available_gb : Option ℚ
  boot : Option BootInfo
deriving DecidableEq, Repr

/-- What SSH observes of the device in one pass, used both for
field-level fallback and for the wholesale SSH path. -/
structure SshObs where
  connectOk : Bool
  version_info : Option VersionInfo
  netconf_state : String
  boot_variables : Option String
  free_space_mb : Option Int
deriving DecidableEq, Repr

/-- The observable state of a device during one discovery pass. -/
structure DiscoveryObs where
  netconf : NetconfObs
  ssh : SshObs
deriving DecidableEq, Repr

/-- The inventory row written by InventoryModel.add_device: the nineteen
named columns plus last_updated, which INSERT OR REPLACE refreshes to
the write instant. -/
structure DeviceRecord where
  ip_address : String
  hostname : String
  serial_number : String
  device_role : String
  current_version : String
  rommon_version : String
  config_register : Option String
  status : String
  netconf_state : String
  model : String
  boot_variable : Option String
  free_space_mb : Option Int
  image_file : Option String
  precheck_status : Option String
  precheck_details : Option String
  target_image : Option String
  image_copied : Option String
  image_verified : Option String
  is_supported : String
  last_updated : Int
deriving DecidableEq, Repr

/-- The five fields discovery carries over from the existing row, with
the defaults used when no row exists. -/
structure Carried where
  precheck_status : Option String
  precheck_details : Option String
  target_image : Option String
  image_copied : Option String
  image_verified : Option String
deriving DecidableEq, Repr

/-- Extraction of the carried fields, as the per-field expressions of
the source: the existing value when a row exists, None or No otherwise. -/
def carriedOf : Option DeviceRecord → Carried
  | some p =>
    { precheck_status := p.precheck_status,
      precheck_details := p.precheck_details,
      target_image := p.target_image,
      image_copied := p.image_copied,
      image_verified := p.image_verified }
  | none =>
    { precheck_status := none, precheck_details := none,
      target_image := none, image_copied := some "No",
      image_verified := some "No" }

/-- Embedding of NetconfClient.determine_device_role: fixed substring
rules over the upper-cased part number. -/
def determine_device_role (part_number : String) : String :=
  let p := upperL part_number.toList
  if containsSub "C9".toList p || containsSub "C3850".toList p ||
      containsSub "C3650".toList p then "Switch"
  else if containsSub "ASR".toList p || containsSub "ISR".toList p ||
      containsSub "C8".toList p || containsSub "CSR".toList p then "Router"
  else "Unknown"

/-- Python int() truncation toward zero on a rational. -/
def pyInt (q : ℚ) : Int :=
  if 0 ≤ q then q.floor else -((-q).floor)

/-- Test of the anchored pattern V digits, applied to the stripped
string: a hardware revision code that must not be taken for a software
version. -/
def isVRevCode (s : String) : Bool :=
  match stripL s.toList with
  | 'V' :: rest => !rest.isEmpty && rest.all (fun c => c.isDigit)
  | _ => false

/-- Prefix test of the pattern digits dot digits on the stripped string:
a clean numeric version starts this way. -/
def startsNumDotNum (s : String) : Bool :=
  let cs := stripL s.toList
  let (d1, r) := PreCheckEngine.takeDigits cs
  if d1.isEmpty then false
  else
    match r with
    | '.' :: r2 => !(PreCheckEngine.takeDigits r2).1.isEmpty
    | _ => false

/-- Prefix of a string before its first comma, as split on comma and
first element. -/
def firstCommaField (s : String) : String :=
  (s.toList.takeWhile (fun c => !(c == ','))).asString

/-- The record the NETCONF branch of discover_devices builds, including
its field-level SSH fallback: free space, boot variable, config
register and version are filled from SSH only when NETCONF left them
missing or the version looks invalid, and the version-info dict is
fetched at most once.  The config-register fill always yields Unknown
because the SSH version dict has no such key. -/
def buildNetconfRecord (obs : DiscoveryObs) (hw : HardwareInfo)
    (sys : SystemInfo) (c : Carried) (isSupported : String → String)
    (ip : String) (now : Int) : DeviceRecord :=
  let device_role := determine_device_role hw.part_number
  let free0 : Option Int := obs.netconf.available_gb.map (fun g => pyInt (g * 1024))
  let bootVar0 : Option String := obs.netconf.boot.map BootInfo.boot_system
  let cfg0 : Option String :=
    match obs.netconf.boot with
    | some b => if b.config_register == "Unknown" then none else some b.config_register
    | none => none
  let av0 : String :=
    if hw.sw_version == "" || hw.sw_version == "Unknown" then sys.version
    else hw.sw_version
  let invalid : Bool :=
    av0 == "" || av0 == "Unknown" || isVRevCode av0 || !(startsNumDotNum av0)
  let needFallback := free0.isNone || bootVar0.isNone || cfg0.isNone || invalid
  let sshOk := needFallback && obs.ssh.connectOk
  let free1 := if sshOk && free0.isNone then obs.ssh.free_space_mb else free0
  let boot1 := if sshOk && bootVar0.isNone then obs.ssh.boot_variables else bootVar0
  let vi : Option VersionInfo :=
    if sshOk && (cfg0.isNone || invalid) then obs.ssh.version_info else none
  let cfg1 := if sshOk && cfg0.isNone && vi.isSome then some "Unknown" else cfg0
  let av1 := match vi with
    | some v => if invalid then v.version else av0
    | none => av0
  let rommon := match vi with
    | some v => v.rommon_version
    | none => "N/A"
  let image_file : Option String :=
    match boot1 with
    | some s => if s.isEmpty then none else some (firstCommaField s)
    | none => none
  { ip_address := ip, hostname := sys.hostname,
    serial_number := hw.serial_number, device_role := device_role,
    current_version := av1, rommon_version := rommon,
    config_register := cfg1, status := "Online",
    netconf_state := "Enabled", model := hw.part_number,
    boot_variable := boot1, free_space_mb := free1,
    image_file := image_file, precheck_status := c.precheck_status,
    precheck_details := c.precheck_details, target_image := c.target_image,
    image_copied := c.image_copied, image_verified := c.image_verified,
    is_supported := isSupported hw.part_number, last_updated := now }

/-- The record the wholesale SSH branch of discover_devices builds.
The source dict lists rommon_version twice; the later entry wins.  The
config register lookup on the version dict always yields its default
Unknown. -/
def buildSshRecord (obs : DiscoveryObs) (vi : VersionInfo) (c : Carried)
    (isSupported : String → String) (ip : String) (now : Int) :
    DeviceRecord :=
  { ip_address := ip, hostname := vi.hostname,
    serial_number := vi.serial_number,
    device_role := determine_device_role vi.model,
    current_version := vi.version, rommon_version := vi.rommon_version,
    config_register := some "Unknown", status := "Online",
    netconf_state := obs.ssh.netconf_state, model := vi.model,
    boot_variable := obs.ssh.boot_variables,
    free_space_mb := obs.ssh.free_space_mb, image_file := vi.image_file,
    precheck_status := c.precheck_status,
    precheck_details := c.precheck_details, target_image := c.target_image,
    image_copied := c.image_copied, image_verified := c.image_verified,
    is_supported := isSupported vi.model, last_updated := now }

/-- The wholesale SSH path, taken when NETCONF does not connect or does
not deliver hardware and system data: no record is written when SSH
fails to connect or delivers no version info. -/
def discover_ssh (obs : DiscoveryObs) (isSupported : String → String)
    (ip : String) (prior : Option DeviceRecord) (now : Int) :
    Option DeviceRecord :=
  if obs.ssh.connectOk then
    match obs.ssh.version_info with
    | some vi => some (buildSshRecord obs vi (carriedOf prior) isSupported ip now)
    | none => none
  else none

/-- One discovery pass for one address: the NETCONF branch when the
connection succeeds and both hardware and system data arrive, the SSH
branch otherwise.  The supported-model classifier is passed in as the
loaded configuration it reads. -/
def discover_device (obs : DiscoveryObs) (isSupported : String → String)
    (ip : String) (prior : Option DeviceRecord) (now : Int) :
    Option DeviceRecord :=
  if obs.netconf.connectOk then
    match obs.netconf.hardware, obs.netconf.system with
    | some hw, some sys =>
      some (buildNetconfRecord obs hw sys (carriedOf prior) isSupported ip now)
    | _, _ => discover_ssh obs isSupported ip prior now
  else discover_ssh obs isSupported ip prior now

/-! ## Helper lemmas -/

namespace PreCheckEngine

theorem pylistLt_irrefl (xs : List Nat) : pylistLt xs xs = false := by
  induction xs with
  | nil => rfl
  | cons a as_ ih => simp [pylistLt, ih]

theorem pylistLt_asymm :
    ∀ xs ys : List Nat, pylistLt xs ys = true → pylistLt ys xs = false
  | [], [], h => by simp [pylistLt] at h
  | [], _ :: _, _ => by simp [pylistLt]
  | _ :: _, [], h => by simp [pylistLt] at h
  | a :: as_, b :: bs, h => by
    simp only [pylistLt] at h ⊢
    rcases Nat.lt_trichotomy a b with hab | hab | hab
    · simp [hab, Nat.lt_asymm hab]
    · subst hab
      simp only [lt_irrefl, if_false] at h ⊢
      exact pylistLt_asymm as_ bs h
    · simp [hab, Nat.lt_asymm hab] at h

theorem pylistLt_connex :
    ∀ xs ys : List Nat, xs ≠ ys →
      pylistLt xs ys = true ∨ pylistLt ys xs = true
  | [], [], h => absurd rfl h
  | [], _ :: _, _ => Or.inl (by simp [pylistLt])
  | _ :: _, [], _ => Or.inr (by simp [pylistLt])
  | a :: as_, b :: bs, h => by
    rcases Nat.lt_trichotomy a b with hab | hab | hab
    · exact Or.inl (by simp [pylistLt, hab])
    · subst hab
      have hne : as_ ≠ bs := by
        intro hc; exact h (by rw [hc])
      rcases pylistLt_connex as_ bs hne with h1 | h1
      · exact Or.inl (by simp [pylistLt, h1])
      · exact Or.inr (by simp [pylistLt, h1])
    · exact Or.inr (by simp [pylistLt, hab, Nat.lt_asymm hab])

theorem toList_inj {s t : String} (h : s.toList = t.toList) : s = t := by
  cases s
  cases t
  exact congrArg String.mk (by simpa [String.toList] using h)

end PreCheckEngine

/-! ## Claim theorems -/

namespace PreCheckEngine

/-- Claim C3: for every pair of version strings, the version-comparison
check parses each into its ordered list of numeric components (ignoring
non-numeric suffixes) and appends exactly one result graded FAIL if the
component lists are equal, WARN if the target list is less than the
current list, and PASS if the target list is greater; if either string
yields no numeric components, the grade falls back to exact string
equality (FAIL if the strings are equal, PASS otherwise). -/
theorem claim_C3 (cur tgt : String) :
    (check_version_difference cur tgt).length = 1 ∧
    ∀ r ∈ check_version_difference cur tgt,
      r.check_name = "Version Comparison" ∧
      ((parse_version cur ≠ [] ∧ parse_version tgt ≠ []) →
        ((r.result = .FAIL ↔ parse_version tgt = parse_version cur) ∧
         (r.result = .WARN ↔
            pylistLt (parse_version tgt) (parse_version cur) = true) ∧
         (r.result = .PASS ↔
            pylistLt (parse_version cur) (parse_version tgt) = true))) ∧
      ((parse_version cur = [] ∨ parse_version tgt = []) →
        ((r.result = .FAIL ↔ cur = tgt) ∧ (r.result = .PASS ↔ cur ≠ tgt))) := by
  simp only [check_version_difference]
  split_ifs with h1 h2 h3 h4
  · -- fallback branch, strings equal: FAIL
    have hempP : parse_version cur = [] ∨ parse_version tgt = [] := by
      rcases Bool.or_eq_true_iff.mp h1 with h | h
      · exact Or.inl (List.isEmpty_iff.mp h)
      · exact Or.inr (List.isEmpty_iff.mp h)
    have hst : cur = tgt := toList_inj (beq_iff_eq.mp h2)
    refine ⟨rfl, fun r hr => ?_⟩
    obtain rfl := List.mem_singleton.mp hr
    refine ⟨rfl,
      fun hno => hempP.elim (fun h => absurd h hno.1) (fun h => absurd h hno.2),
      fun _ => ?_⟩
    exact ⟨iff_of_true rfl hst,
      iff_of_false (fun h => Grade.noConfusion h) (fun h => h hst)⟩
  · -- fallback branch, strings differ: PASS
    have hempP : parse_version cur = [] ∨ parse_version tgt = [] := by
      rcases Bool.or_eq_true_iff.mp h1 with h | h
      · exact Or.inl (List.isEmpty_iff.mp h)
      · exact Or.inr (List.isEmpty_iff.mp h)
    have hst : cur ≠ tgt := fun hc => h2 (by rw [hc]; exact beq_self_eq_true _)
    refine ⟨rfl, fun r hr => ?_⟩
    obtain rfl := List.mem_singleton.mp hr
    refine ⟨rfl,
      fun hno => hempP.elim (fun h => absurd h hno.1) (fun h => absurd h hno.2),
      fun _ => ?_⟩
    exact ⟨iff_of_false (fun h => Grade.noConfusion h) hst, iff_of_true rfl hst⟩
  · -- parsed branch, equal component lists: FAIL
    have hnemp : parse_version cur ≠ [] ∧ parse_version tgt ≠ [] := by
      rw [Bool.or_eq_true_iff] at h1
      push_neg at h1
      exact ⟨fun h => h1.1 (by simp [h]), fun h => h1.2 (by simp [h])⟩
    refine ⟨rfl, fun r hr => ?_⟩
    obtain rfl := List.mem_singleton.mp hr
    refine ⟨rfl, fun _ => ?_,
      fun hc => hc.elim (fun h => absurd h hnemp.1) (fun h => absurd h hnemp.2)⟩
    refine ⟨iff_of_true rfl h3.symm, ?_, ?_⟩
    · refine iff_of_false (fun h => Grade.noConfusion h) (fun h => ?_)
      rw [h3, pylistLt_irrefl] at h
      exact Bool.noConfusion h
    · refine iff_of_false (fun h => Grade.noConfusion h) (fun h => ?_)
      rw [h3, pylistLt_irrefl] at h
      exact Bool.noConfusion h
  · -- parsed branch, target below current: WARN
    have hnemp : parse_version cur ≠ [] ∧ parse_version tgt ≠ [] := by
      rw [Bool.or_eq_true_iff] at h1
      push_neg at h1
      exact ⟨fun h => h1.1 (by simp [h]), fun h => h1.2 (by simp [h])⟩
    refine ⟨rfl, fun r hr => ?_⟩
    obtain rfl := List.mem_singleton.mp hr
    refine ⟨rfl, fun _ => ?_,
      fun hc => hc.elim (fun h => absurd h hnemp.1) (fun h => absurd h hnemp.2)⟩
    refine ⟨iff_of_false (fun h => Grade.noConfusion h) (fun h => h3 h.symm),
      iff_of_true rfl h4, ?_⟩
    refine iff_of_false (fun h => Grade.noConfusion h) (fun h => ?_)
    rw [pylistLt_asymm _ _ h4] at h
    exact Bool.noConfusion h
  · -- parsed branch, target above current: PASS
    have hnemp : parse_version cur ≠ [] ∧ parse_version tgt ≠ [] := by
      rw [Bool.or_eq_true_iff] at h1
      push_neg at h1
      exact ⟨fun h => h1.1 (by simp [h]), fun h => h1.2 (by simp [h])⟩
    have hgt : pylistLt (parse_version cur) (parse_version tgt) = true := by
      rcases pylistLt_connex (parse_version cur) (parse_version tgt) h3 with h | h
      · exact h
      · exact absurd h h4
    refine ⟨rfl, fun r hr => ?_⟩
    obtain rfl := List.mem_singleton.mp hr
    refine ⟨rfl, fun _ => ?_,
      fun hc => hc.elim (fun h => absurd h hnemp.1) (fun h => absurd h hnemp.2)⟩
    refine ⟨iff_of_false (fun h => Grade.noConfusion h) (fun h => h3 h.symm),
      iff_of_false (fun h => Grade.noConfusion h) h4, iff_of_true rfl hgt⟩

/-- Witness for claim C3 at the downgrade example of the specification:
current 17.9.1, target 16.12.5, both parseable, one WARN result. -/
theorem claim_C3_witness :
    (check_version_difference "17.9.1" "16.12.5").length = 1 ∧
    ∀ r ∈ check_version_difference "17.9.1" "16.12.5",
      r.result = Grade.WARN := by
  have h := claim_C3 "17.9.1" "16.12.5"
  refine ⟨h.1, fun r hr => ?_⟩
  have h2 := ((h.2 r hr).2.1 (by decide)).2.1
  exact h2.mpr (by decide)

/-- Counterexample to claim C4: with exactly one gigabyte available
(hence not under one gigabyte) and a known image size of 900 megabytes,
available space is below twice the image size, so the claim prescribes
WARN; _evaluate_disk_space grades FAIL, having no WARN tier for a known
size. -/
theorem claim_C4_counterexample :
    ((1 : ℚ) ≥ 1 ∧ (1 : ℚ) * 1024 < 900 * 2) ∧
    (evaluate_disk_space 1 900).map CheckResult.result = [Grade.FAIL] ∧
    (evaluate_disk_space 1 900).map CheckResult.result ≠ [Grade.WARN] := by
  have hev : evaluate_disk_space 1 900 =
      [{ check_name := "Disk Space Thresholds", result := Grade.FAIL }] := by
    norm_num [evaluate_disk_space]
  refine ⟨⟨le_refl 1, by norm_num⟩, ?_, ?_⟩
  · rw [hev]
    rfl
  · rw [hev]
    decide

/-- Claim C4, amended: for a known positive image size,
_evaluate_disk_space grades FAIL exactly when the available megabytes
are below twice the image size and PASS otherwise, with no WARN grade
and no separate one-gigabyte floor; for an unknown size it grades WARN
exactly below one gigabyte and PASS otherwise.  The NETCONF
multi-filesystem path instead grades with fixed thresholds, independent
of the image size: FAIL when any member is under one gigabyte, WARN
when none is under one but some is under two, and PASS when all are at
two or above. -/
theorem claim_C4_amended (a s : ℚ) (L : List ℚ) :
    (0 < s →
      (evaluate_disk_space a s).length = 1 ∧
      ∀ r ∈ evaluate_disk_space a s,
        r.check_name = "Disk Space Thresholds" ∧
        (r.result = .FAIL ↔ a * 1024 < s * 2) ∧
        (r.result = .PASS ↔ ¬ a * 1024 < s * 2) ∧
        r.result ≠ .WARN) ∧
    (¬ 0 < s →
      (evaluate_disk_space a s).length = 1 ∧
      ∀ r ∈ evaluate_disk_space a s,
        r.check_name = "Disk Space Thresholds" ∧
        (r.result = .WARN ↔ a < 1) ∧
        (r.result = .PASS ↔ 1 ≤ a)) ∧
    ((netconf_disk_grade L = .FAIL ↔ ∃ x ∈ L, x < 1) ∧
     (netconf_disk_grade L = .WARN ↔ ((∀ x ∈ L, 1 ≤ x) ∧ ∃ x ∈ L, x < 2)) ∧
     (netconf_disk_grade L = .PASS ↔ ∀ x ∈ L, 2 ≤ x)) := by
  refine ⟨fun hs => ?_, fun hs => ?_, ?_⟩
  · simp only [evaluate_disk_space]
    rw [if_pos hs]
    split_ifs with hlt
    · refine ⟨rfl, fun r hr => ?_⟩
      obtain rfl := List.mem_singleton.mp hr
      exact ⟨rfl, iff_of_true rfl hlt,
        iff_of_false (fun h => Grade.noConfusion h) (fun h => h hlt),
        fun h => Grade.noConfusion h⟩
    · refine ⟨rfl, fun r hr => ?_⟩
      obtain rfl := List.mem_singleton.mp hr
      exact ⟨rfl, iff_of_false (fun h => Grade.noConfusion h) hlt,
        iff_of_true rfl hlt, fun h => Grade.noConfusion h⟩
  · simp only [evaluate_disk_space]
    rw [if_neg hs]
    split_ifs with hlt
    · refine ⟨rfl, fun r hr => ?_⟩
      obtain rfl := List.mem_singleton.mp hr
      exact ⟨rfl, iff_of_true rfl hlt,
        iff_of_false (fun h => Grade.noConfusion h) (not_le.mpr hlt)⟩
    · refine ⟨rfl, fun r hr => ?_⟩
      obtain rfl := List.mem_singleton.mp hr
      exact ⟨rfl, iff_of_false (fun h => Grade.noConfusion h) hlt,
        iff_of_true rfl (not_lt.mp hlt)⟩
  · simp only [netconf_disk_grade]
    split_ifs with hf hw
    · have hf' : ∃ x ∈ L, x < 1 := by simpa using hf
      obtain ⟨x, hx, hx1⟩ := id hf'
      refine ⟨iff_of_true rfl hf', ?_, ?_⟩
      · refine iff_of_false (by decide) (fun hc => ?_)
        exact absurd (hc.1 x hx) (not_le.mpr hx1)
      · refine iff_of_false (by decide) (fun hc => ?_)
        exact absurd (hc x hx) (by linarith)
    · have hf' : ¬ ∃ x ∈ L, x < 1 := by simpa using hf
      have hw' : ∃ x ∈ L, x < 2 := by simpa using hw
      have hall : ∀ x ∈ L, 1 ≤ x := by
        intro x hx
        by_contra hc
        exact hf' ⟨x, hx, not_le.mp hc⟩
      obtain ⟨y, hy, hy2⟩ := hw'
      refine ⟨iff_of_false (by decide) hf',
        iff_of_true rfl ⟨hall, ⟨y, hy, hy2⟩⟩, ?_⟩
      refine iff_of_false (by decide) (fun hc => ?_)
      exact absurd (hc y hy) (not_le.mpr hy2)
    · have hf' : ¬ ∃ x ∈ L, x < 1 := by simpa using hf
      have hw' : ¬ ∃ x ∈ L, x < 2 := by simpa using hw
      have hall : ∀ x ∈ L, 2 ≤ x := by
        intro x hx
        by_contra hc
        exact hw' ⟨x, hx, not_le.mp hc⟩
      refine ⟨iff_of_false (by decide) hf', ?_,
        iff_of_true rfl hall⟩
      refine iff_of_false (by decide) (fun hc => ?_)
      exact hw' hc.2

/-- Witness for the amended claim C4 at one gigabyte available and a
900-megabyte image. -/
theorem claim_C4_amended_witness :
    (0 : ℚ) < 900 ∧
    ((evaluate_disk_space 1 900).length = 1 ∧
     ∀ r ∈ evaluate_disk_space 1 900,
       r.check_name = "Disk Space Thresholds" ∧
       (r.result = .FAIL ↔ (1 : ℚ) * 1024 < 900 * 2) ∧
       (r.result = .PASS ↔ ¬ (1 : ℚ) * 1024 < 900 * 2) ∧
       r.result ≠ .WARN) :=
  ⟨by decide, (claim_C4_amended 1 900 [3]).1 (by decide)⟩

end PreCheckEngine

/-! ### Copy and verify phases -/

theorem execute_verify_shape (env : VerifyEnv) :
    ∃ final, (execute_verify_job env).statusWrites = ["Running", final] := by
  rcases env with ⟨c, f, eh, ah⟩
  cases c
  · exact ⟨"Failed", rfl⟩
  cases f
  · exact ⟨"Failed", rfl⟩
  cases eh with
  | none => exact ⟨"Success", rfl⟩
  | some e =>
    cases ah with
    | none => exact ⟨"Failed", rfl⟩
    | some a =>
      by_cases hb : lowerL a.data = lowerL e.data
      · exact ⟨"COMPLETED", by simp [execute_verify_job, hb]⟩
      · exact ⟨"Failed", by simp [execute_verify_job, hb]⟩

/-- Claim C5: for every copy job whose transfer succeeds and whose
post-copy existence check confirms the file, the device record gets
copy status Yes and verify status No, and the verify phase runs within
the same job (the same trace, no second job record), its outcome being
the final job status; the copy phase itself writes only Running before
handing over, never a Success.  For every copy job where connect,
transfer, or the post-copy check fails, the job is marked Failed and
the verify phase does not run. -/
theorem claim_C5 (env : CopyEnv) :
    (env.connectOk = true → env.copySuccess = true → env.postExists = true →
      (execute_copy_job env).copiedWrites.head? = some "Yes" ∧
      (execute_copy_job env).verifiedWrites.head? = some "No" ∧
      (execute_copy_job env).ranVerify = true ∧
      (execute_copy_job env).statusWrites =
        "Running" :: (execute_verify_job env.verifyEnv).statusWrites ∧
      (execute_copy_job env).statusWrites.getLast? =
        (execute_verify_job env.verifyEnv).statusWrites.getLast?) ∧
    ((execute_copy_job env).ranVerify = false →
      (execute_copy_job env).statusWrites = ["Running", "Failed"] ∧
      "Success" ∉ (execute_copy_job env).statusWrites) ∧
    ((env.connectOk = false ∨ env.copySuccess = false ∨ env.postExists = false) →
      (execute_copy_job env).ranVerify = false ∧
      (execute_copy_job env).statusWrites = ["Running", "Failed"]) := by
  rcases env with ⟨c, pre, cp, post, venv⟩
  refine ⟨?_, ?_, ?_⟩
  · intro hc hcp hpost
    subst hc
    subst hcp
    subst hpost
    obtain ⟨final, hfin⟩ := execute_verify_shape venv
    refine ⟨rfl, rfl, rfl, ?_, ?_⟩
    · simp [execute_copy_job]
    · simp [execute_copy_job, hfin]
  · intro hnr
    cases c
    · exact ⟨rfl, by simp [execute_copy_job]⟩
    · cases cp
      · exact ⟨rfl, by simp [execute_copy_job]⟩
      · cases post
        · exact ⟨rfl, by simp [execute_copy_job]⟩
        · exact absurd hnr (by simp [execute_copy_job])
  · intro hbad
    rcases hbad with h | h | h
    · subst h
      exact ⟨rfl, rfl⟩
    · subst h
      cases c
      · exact ⟨rfl, rfl⟩
      · exact ⟨rfl, rfl⟩
    · subst h
      cases c
      · exact ⟨rfl, rfl⟩
      · cases cp
        · exact ⟨rfl, rfl⟩
        · exact ⟨rfl, rfl⟩

/-- Witness for claim C5 at a fully successful copy chained into a
verify run that finds no repository hash. -/
theorem claim_C5_witness :
    (execute_copy_job ⟨true, false, true, true, ⟨true, true, none, none⟩⟩).copiedWrites.head? = some "Yes" ∧
    (execute_copy_job ⟨true, false, true, true, ⟨true, true, none, none⟩⟩).verifiedWrites.head? = some "No" ∧
    (execute_copy_job ⟨true, false, true, true, ⟨true, true, none, none⟩⟩).ranVerify = true ∧
    (execute_copy_job ⟨true, false, true, true, ⟨true, true, none, none⟩⟩).statusWrites =
      "Running" :: (execute_verify_job ⟨true, true, none, none⟩).statusWrites ∧
    (execute_copy_job ⟨true, false, true, true, ⟨true, true, none, none⟩⟩).statusWrites.getLast? =
      (execute_verify_job ⟨true, true, none, none⟩).statusWrites.getLast? := by
  have h := (claim_C5 ⟨true, false, true, true, ⟨true, true, none, none⟩⟩).1 rfl rfl rfl
  exact ⟨h.1, h.2.1, h.2.2.1, h.2.2.2.1, h.2.2.2.2⟩

/-- Claim C6: for every verify job where the connection succeeds and the
file is present but the repository has no expected hash for the
filename, the verify phase sets the device verify status to the string
No hash and closes the job Success, never writing Failed. -/
theorem claim_C6 (env : VerifyEnv) (h1 : env.connectOk = true)
    (h2 : env.fileExists = true) (h3 : env.expectedHash = none) :
    (execute_verify_job env).verifiedWrites = ["No hash"] ∧
    (execute_verify_job env).statusWrites = ["Running", "Success"] ∧
    "Failed" ∉ (execute_verify_job env).statusWrites := by
  rcases env with ⟨c, f, eh, ah⟩
  simp only at h1 h2 h3
  subst h1
  subst h2
  subst h3
  exact ⟨rfl, rfl, by simp [execute_verify_job]⟩

/-- Witness for claim C6 with a hash computation that would have
succeeded. -/
theorem claim_C6_witness :
    (execute_verify_job ⟨true, true, none, some "0a1b"⟩).verifiedWrites = ["No hash"] ∧
    (execute_verify_job ⟨true, true, none, some "0a1b"⟩).statusWrites = ["Running", "Success"] ∧
    "Failed" ∉ (execute_verify_job ⟨true, true, none, some "0a1b"⟩).statusWrites :=
  claim_C6 ⟨true, true, none, some "0a1b"⟩ rfl rfl rfl

/-- Claim C10: on the hash-mismatch path (connection up, file present,
expected hash known, device hash computed but different), the source
reads the local variable result before any assignment to it, so control
leaves the normal mismatch branch through the generic except handler;
the handler writes status Failed, the device verify status has already
been set to Failed, and no exception reaches the caller. -/
theorem claim_C10 (env : VerifyEnv) (expected actual : String)
    (h1 : env.connectOk = true) (h2 : env.fileExists = true)
    (h3 : env.expectedHash = some expected) (h4 : env.actualHash = some actual)
    (h5 : lowerL actual.toList ≠ lowerL expected.toList) :
    (execute_verify_job env).raisesToCaller = false ∧
    (execute_verify_job env).caughtUnboundLocal = true ∧
    (execute_verify_job env).statusWrites = ["Running", "Failed"] ∧
    (execute_verify_job env).verifiedWrites = ["Failed"] := by
  rcases env with ⟨c, f, eh, ah⟩
  simp only at h1 h2 h3 h4
  subst h1
  subst h2
  subst h3
  subst h4
  have h5d : lowerL actual.data ≠ lowerL expected.data := h5
  refine ⟨?_, ?_, ?_, ?_⟩ <;> simp [execute_verify_job, h5d]

/-- Witness for claim C10 at concrete differing hashes. -/
theorem claim_C10_witness :
    (execute_verify_job ⟨true, true, some "AA12", some "bb34"⟩).raisesToCaller = false ∧
    (execute_verify_job ⟨true, true, some "AA12", some "bb34"⟩).caughtUnboundLocal = true ∧
    (execute_verify_job ⟨true, true, some "AA12", some "bb34"⟩).statusWrites = ["Running", "Failed"] ∧
    (execute_verify_job ⟨true, true, some "AA12", some "bb34"⟩).verifiedWrites = ["Failed"] :=
  claim_C10 ⟨true, true, some "AA12", some "bb34"⟩ "AA12" "bb34" rfl rfl rfl rfl (by decide)

/-- Claim C7, on the code-bug path: the verify phase closes a
hash-matching job with the status string COMPLETED, and
JobManager.start_job creates records with the status string RUNNING;
neither belongs to the seven admissible status values, contradicting
the data model that all other writers follow. -/
theorem claim_C7_codebug :
    "COMPLETED" ∈ (execute_verify_job ⟨true, true, some "abc123", some "ABC123"⟩).statusWrites ∧
    allowed_job_status "COMPLETED" = false ∧
    (start_job_data "10.0.0.1" "IMAGE_COPY" none).status = "RUNNING" ∧
    allowed_job_status "RUNNING" = false := by
  decide

/-! ### Scheduler sweep -/

/-- Counterexample to claim C1: a Scheduled job two hours past its
schedule time, observed by a sweep, is dispatched into the upgrade
worker, whose first status write is Running; the sweep itself writes
nothing for it, and in particular no Missed status exists anywhere in
the scheduler. -/
theorem claim_C1_counterexample :
    (10000 : Int) - 2800 > 3600 ∧
    sweepActionFor 10000 ⟨"j1", "10.0.0.1", "Scheduled", some (some 2800)⟩
      (some ⟨"10.0.0.1", some "img.bin", "Switch"⟩) = SweepAction.dispatch ∧
    (execute_upgrade_statuses ⟨true, true, true, true⟩).head? = some "Running" ∧
    sweepStatusWrites 10000 [⟨"j1", "10.0.0.1", "Scheduled", some (some 2800)⟩]
      [⟨"10.0.0.1", some "img.bin", "Switch"⟩] = [] := by
  decide

/-- Claim C1, amended: the sweep has no staleness threshold.  Every
observed Scheduled job whose parsed schedule time is due, no matter how
far past, is dispatched into execute_upgrade when the device row
carries a target image (and the worker then sets it Running), or marked
Failed when it carries none; the only status the sweep itself ever
writes is Failed — never Missed. -/
theorem claim_C1_amended (now t : Int) (row : JobRow)
    (device : Option DeviceRow) (hs : row.schedule_time = some (some t))
    (hdue : t ≤ now) :
    (∀ d, device = some d → truthyStr d.target_image = true →
      sweepActionFor now row device = .dispatch) ∧
    (∀ d, device = some d → truthyStr d.target_image = false →
      sweepActionFor now row device = .markFailed) ∧
    (device = none → sweepActionFor now row device = .markFailed) ∧
    (∀ table devices, ∀ w ∈ sweepStatusWrites now table devices,
      w.2 = "Failed") ∧
    (∀ uenv : UpgradeEnv,
      (execute_upgrade_statuses uenv).head? = some "Running") := by
  refine ⟨?_, ?_, ?_, ?_, ?_⟩
  · intro d hd himg
    subst hd
    simp [sweepActionFor, hs, hdue, himg]
  · intro d hd himg
    subst hd
    simp [sweepActionFor, hs, hdue, himg]
  · intro hd
    subst hd
    simp only [sweepActionFor, hs]
    rw [if_pos hdue]
    rfl
  · intro table devices w hw
    simp only [sweepStatusWrites, List.mem_filterMap] at hw
    obtain ⟨r, _, hf⟩ := hw
    split at hf
    · cases hf
      rfl
    · cases hf
  · intro uenv
    rfl

/-- Witness for the amended claim C1 at the concrete two-hours-late
job. -/
theorem claim_C1_amended_witness :
    sweepActionFor 10000 ⟨"j1", "10.0.0.1", "Scheduled", some (some 2800)⟩
      (some ⟨"10.0.0.1", some "img.bin", "Switch"⟩) = SweepAction.dispatch ∧
    (∀ w ∈ sweepStatusWrites 10000
        [⟨"j1", "10.0.0.1", "Scheduled", some (some 2800)⟩]
        [⟨"10.0.0.1", some "img.bin", "Switch"⟩], w.2 = "Failed") ∧
    (execute_upgrade_statuses ⟨true, true, true, true⟩).head? = some "Running" := by
  have h := claim_C1_amended 10000 2800
    ⟨"j1", "10.0.0.1", "Scheduled", some (some 2800)⟩
    (some ⟨"10.0.0.1", some "img.bin", "Switch"⟩) rfl (by decide)
  exact ⟨h.1 _ rfl (by decide), h.2.2.2.1 _ _, h.2.2.2.2 _⟩

/-- Counterexample to claim C2: the sweep performs no status write for a
job it dispatches, so the table is unchanged after the sweep, and a
second sweep over the unchanged table dispatches the same job a second
time — the status flip happens only inside the worker, after dispatch. -/
theorem claim_C2_counterexample :
    sweepDispatches 1000 [⟨"j2", "10.0.0.2", "Scheduled", some (some 500)⟩]
      [⟨"10.0.0.2", some "img.bin", "Router"⟩] = ["j2"] ∧
    sweepStatusWrites 1000 [⟨"j2", "10.0.0.2", "Scheduled", some (some 500)⟩]
      [⟨"10.0.0.2", some "img.bin", "Router"⟩] = [] ∧
    applyStatusWrites [⟨"j2", "10.0.0.2", "Scheduled", some (some 500)⟩]
      (sweepStatusWrites 1000 [⟨"j2", "10.0.0.2", "Scheduled", some (some 500)⟩]
        [⟨"10.0.0.2", some "img.bin", "Router"⟩]) =
      [⟨"j2", "10.0.0.2", "Scheduled", some (some 500)⟩] ∧
    sweepDispatches 1000
      (applyStatusWrites [⟨"j2", "10.0.0.2", "Scheduled", some (some 500)⟩]
        (sweepStatusWrites 1000 [⟨"j2", "10.0.0.2", "Scheduled", some (some 500)⟩]
          [⟨"10.0.0.2", some "img.bin", "Router"⟩]))
      [⟨"10.0.0.2", some "img.bin", "Router"⟩] = ["j2"] := by
  decide

/-- Claim C2, amended: the scheduler performs no status flip before
dispatch; the flip to Running is the first action of execute_upgrade
inside the spawned worker.  Within one sweep each job is dispatched at
most once, the sweep writes no status for any job it dispatches, and
once the worker's Running write has been applied to the table a later
sweep no longer dispatches the job; at-most-once dispatch across sweeps
therefore holds only when each worker's Running update lands before the
next sweep reads the table. -/
theorem claim_C2_amended :
    (∀ (now : Int) (table : List JobRow) (devices : List DeviceRow),
      (table.map JobRow.job_id).Nodup →
      (sweepDispatches now table devices).Nodup) ∧
    (∀ (now : Int) (table : List JobRow) (devices : List DeviceRow) (jid : String),
      (table.map JobRow.job_id).Nodup →
      jid ∈ sweepDispatches now table devices →
      ∀ w ∈ sweepStatusWrites now table devices, w.1 ≠ jid) ∧
    (∀ uenv : UpgradeEnv,
      (execute_upgrade_statuses uenv).head? = some "Running") ∧
    (∀ (now2 : Int) (table : List JobRow) (devices : List DeviceRow) (jid : String),
      jid ∉ sweepDispatches now2 (setJobStatus table jid "Running") devices) := by
  refine ⟨?_, ?_, fun _ => rfl, ?_⟩
  · intro now table devices hnd
    have hsub :
        ((scheduledSnapshot table).filter
          (fun r => sweepActionFor now r (lookupDevice devices r.target_ip)
            == .dispatch)).Sublist table :=
      (List.filter_sublist _).trans (List.filter_sublist _)
    exact (hnd.sublist (hsub.map JobRow.job_id))
  · intro now table devices jid hnd hdisp w hw hwj
    simp only [sweepDispatches, List.mem_map, List.mem_filter] at hdisp
    obtain ⟨r1, ⟨hr1s, hr1d⟩, hr1j⟩ := hdisp
    simp only [sweepStatusWrites, List.mem_filterMap] at hw
    obtain ⟨r2, hr2s, hf⟩ := hw
    by_cases hc : (sweepActionFor now r2 (lookupDevice devices r2.target_ip)
        == SweepAction.markFailed) = true
    · rw [if_pos hc] at hf
      cases hf
      have hr2w : sweepActionFor now r2 (lookupDevice devices r2.target_ip)
          = .markFailed := beq_iff_eq.mp hc
      have hr1t : r1 ∈ table := List.mem_of_mem_filter hr1s
      have hr2t : r2 ∈ table := List.mem_of_mem_filter hr2s
      have hfeq : r1.job_id = r2.job_id := by
        rw [hr1j]
        exact hwj.symm
      have heq : r1 = r2 := List.inj_on_of_nodup_map hnd hr1t hr2t hfeq
      have h1 : sweepActionFor now r1 (lookupDevice devices r1.target_ip)
          = .dispatch := beq_iff_eq.mp hr1d
      rw [heq, hr2w] at h1
      exact SweepAction.noConfusion h1
    · rw [if_neg hc] at hf
      cases hf
  · intro now2 table devices jid hmem
    simp only [sweepDispatches, List.mem_map] at hmem
    obtain ⟨r, hrf, hrj⟩ := hmem
    rw [List.mem_filter] at hrf
    obtain ⟨hrs, hrd⟩ := hrf
    rw [scheduledSnapshot, List.mem_filter] at hrs
    obtain ⟨hrt, hsched⟩ := hrs
    rw [setJobStatus, List.mem_map] at hrt
    obtain ⟨r0, hr0, hr0f⟩ := hrt
    by_cases hb : (r0.job_id == jid) = true
    · rw [if_pos hb] at hr0f
      subst hr0f
      simp at hsched
    · rw [if_neg hb] at hr0f
      subst hr0f
      rw [hrj] at hb
      exact hb (beq_self_eq_true jid)

/-- Witness for the amended claim C2 at the concrete one-job table. -/
theorem claim_C2_amended_witness :
    (sweepDispatches 1000 [⟨"j2", "10.0.0.2", "Scheduled", some (some 500)⟩]
      [⟨"10.0.0.2", some "img.bin", "Router"⟩]).Nodup ∧
    "j2" ∉ sweepDispatches 1000
      (setJobStatus [⟨"j2", "10.0.0.2", "Scheduled", some (some 500)⟩] "j2" "Running")
      [⟨"10.0.0.2", some "img.bin", "Router"⟩] := by
  have h := claim_C2_amended
  exact ⟨h.1 1000 _ _ (by decide), h.2.2.2 1000 _ _ "j2"⟩

/-! ### Command-channel read loop -/

/-- Counterexample to claim C8: a stream that yields one ordinary chunk
and then nothing leaves the loop polling forever; no timeout makes it
terminate, and nothing is reported as failed. -/
theorem claim_C8_counterexample :
    chunkEndsPrompt "Copying file via http progress 42" = false ∧
    stream_outcome [ChannelEvent.chunk "Copying file via http progress 42"] =
      StreamOutcome.loopsForever ∧
    StreamOutcome.loopsForever ≠ StreamOutcome.reportedFailed ∧
    StreamOutcome.loopsForever ≠ StreamOutcome.completed := by
  decide

/-- Claim C8, amended: the read loop has no timeout.  It polls forever
exactly when the stream never again produces a chunk that, stripped,
ends with the prompt marker and never raises; it completes only on such
a marker chunk, and it reports failure only when reading raises an
exception. -/
theorem claim_C8_amended (events : List ChannelEvent) :
    (stream_outcome events = .loopsForever ↔
      ∀ e ∈ events, ∃ s, e = .chunk s ∧ chunkEndsPrompt s = false) ∧
    (stream_outcome events = .completed →
      ∃ s, ChannelEvent.chunk s ∈ events ∧ chunkEndsPrompt s = true) ∧
    (stream_outcome events = .reportedFailed →
      ChannelEvent.raised ∈ events) := by
  induction events with
  | nil =>
    refine ⟨?_, ?_, ?_⟩ <;> simp [stream_outcome]
  | cons e rest ih =>
    cases e with
    | raised =>
      refine ⟨?_, ?_, ?_⟩
      · refine iff_of_false (by simp [stream_outcome]) (fun hall => ?_)
        obtain ⟨s, hs, _⟩ := hall ChannelEvent.raised (List.mem_cons_self _ _)
        exact ChannelEvent.noConfusion hs
      · intro h
        rw [show stream_outcome (ChannelEvent.raised :: rest)
            = .reportedFailed from rfl] at h
        exact absurd h (by decide)
      · intro _
        exact List.mem_cons_self _ _
    | chunk s =>
      by_cases hp : chunkEndsPrompt s = true
      · refine ⟨?_, ?_, ?_⟩
        · refine iff_of_false (by simp [stream_outcome, hp]) (fun hall => ?_)
          obtain ⟨s2, hs2, hf2⟩ := hall (ChannelEvent.chunk s) (List.mem_cons_self _ _)
          cases hs2
          rw [hp] at hf2
          exact Bool.noConfusion hf2
        · intro _
          exact ⟨s, List.mem_cons_self _ _, hp⟩
        · intro h
          rw [show stream_outcome (ChannelEvent.chunk s :: rest)
              = .completed from by simp [stream_outcome, hp]] at h
          exact absurd h (by decide)
      · have hpf : chunkEndsPrompt s = false := by
          simpa using hp
        have hstep : stream_outcome (ChannelEvent.chunk s :: rest)
            = stream_outcome rest := by
          simp [stream_outcome, hpf]
        refine ⟨?_, ?_, ?_⟩
        · rw [hstep]
          constructor
          · intro h e he
            rcases List.mem_cons.mp he with rfl | he2
            · exact ⟨s, rfl, hpf⟩
            · exact ih.1.mp h e he2
          · intro hall
            exact ih.1.mpr (fun e he => hall e (List.mem_cons_of_mem _ he))
        · rw [hstep]
          intro h
          obtain ⟨s2, hm, hp2⟩ := ih.2.1 h
          exact ⟨s2, List.mem_cons_of_mem _ hm, hp2⟩
        · rw [hstep]
          intro h
          exact List.mem_cons_of_mem _ (ih.2.2 h)

/-- Witness for the amended claim C8: a single marker-free chunk leaves
the loop polling forever. -/
theorem claim_C8_amended_witness :
    stream_outcome [ChannelEvent.chunk "interim output"] =
      StreamOutcome.loopsForever :=
  (claim_C8_amended [ChannelEvent.chunk "interim output"]).1.mpr
    (fun e he => by
      obtain rfl := List.mem_singleton.mp he
      exact ⟨"interim output", rfl, by decide⟩)

/-! ### Discovery idempotence -/

theorem discover_ssh_idem (obs : DiscoveryObs) (isSupported : String → String)
    (ip : String) (prior : Option DeviceRecord) (now1 now2 : Int)
    (r1 : DeviceRecord)
    (h : discover_ssh obs isSupported ip prior now1 = some r1) :
    discover_ssh obs isSupported ip (some r1) now2 =
      some { r1 with last_updated := now2 } ∧
    carriedOf (some r1) = carriedOf prior := by
  unfold discover_ssh at h ⊢
  by_cases hssh : obs.ssh.connectOk = true
  · rw [if_pos hssh] at h ⊢
    revert h
    cases hvi : obs.ssh.version_info with
    | none =>
      intro h
      exact Option.noConfusion h
    | some vi =>
      intro h
      obtain rfl := Option.some.inj h
      exact ⟨rfl, rfl⟩
  · rw [if_neg hssh] at h
    exact Option.noConfusion h

/-- Claim C9: for a device whose observable state is unchanged between
two discovery runs, the second run writes the same Device record as the
first except for last_updated, and the five carried fields — target
image, image-copied and image-verified status, pre-check status and
details — are taken verbatim from the prior record. -/
theorem claim_C9 (obs : DiscoveryObs) (isSupported : String → String)
    (ip : String) (prior : Option DeviceRecord) (now1 now2 : Int)
    (r1 : DeviceRecord)
    (h : discover_device obs isSupported ip prior now1 = some r1) :
    discover_device obs isSupported ip (some r1) now2 =
      some { r1 with last_updated := now2 } ∧
    (∀ p, prior = some p →
      r1.target_image = p.target_image ∧
      r1.image_copied = p.image_copied ∧
      r1.image_verified = p.image_verified ∧
      r1.precheck_status = p.precheck_status ∧
      r1.precheck_details = p.precheck_details) := by
  have key : discover_device obs isSupported ip (some r1) now2 =
      some { r1 with last_updated := now2 } ∧
      carriedOf (some r1) = carriedOf prior := by
    unfold discover_device at h ⊢
    by_cases hnc : obs.netconf.connectOk = true
    · rw [if_pos hnc] at h ⊢
      revert h
      cases hhw : obs.netconf.hardware with
      | some hw =>
        cases hsys : obs.netconf.system with
        | some sys =>
          intro h
          obtain rfl := Option.some.inj h
          exact ⟨rfl, rfl⟩
        | none =>
          intro h
          exact discover_ssh_idem obs isSupported ip prior now1 now2 r1 h
      | none =>
        intro h
        exact discover_ssh_idem obs isSupported ip prior now1 now2 r1 h
    · rw [if_neg hnc] at h ⊢
      exact discover_ssh_idem obs isSupported ip prior now1 now2 r1 h
  refine ⟨key.1, fun p hp => ?_⟩
  subst hp
  exact ⟨congrArg Carried.target_image key.2,
    congrArg Carried.image_copied key.2,
    congrArg Carried.image_verified key.2,
    congrArg Carried.precheck_status key.2,
    congrArg Carried.precheck_details key.2⟩

/-- Witness for claim C9 on a concrete device discovered through the
SSH path, with no prior row: the second run reproduces the first record
except for last_updated. -/
theorem claim_C9_witness :
    discover_device
      ⟨⟨false, none, none, none, none⟩,
       ⟨true, some ⟨"17.3.2", "sw1", "FDO123", "C9300-24T",
          some "flash:cat9k.bin", "ROM17"⟩,
        "Disabled", some "flash:packages.conf", some 3000⟩⟩
      (fun _ => "Yes") "10.1.1.1"
      (some
        { ip_address := "10.1.1.1", hostname := "sw1",
          serial_number := "FDO123", device_role := "Switch",
          current_version := "17.3.2", rommon_version := "ROM17",
          config_register := some "Unknown", status := "Online",
          netconf_state := "Disabled", model := "C9300-24T",
          boot_variable := some "flash:packages.conf",
          free_space_mb := some 3000,
          image_file := some "flash:cat9k.bin",
          precheck_status := none, precheck_details := none,
          target_image := none, image_copied := some "No",
          image_verified := some "No", is_supported := "Yes",
          last_updated := 100 }) 200 =
    some
      { ip_address := "10.1.1.1", hostname := "sw1",
        serial_number := "FDO123", device_role := "Switch",
        current_version := "17.3.2", rommon_version := "ROM17",
        config_register := some "Unknown", status := "Online",
        netconf_state := "Disabled", model := "C9300-24T",
        boot_variable := some "flash:packages.conf",
        free_space_mb := some 3000,
        image_file := some "flash:cat9k.bin",
        precheck_status := none, precheck_details := none,
        target_image := none, image_copied := some "No",
        image_verified := some "No", is_supported := "Yes",
        last_updated := 200 } :=
  (claim_C9
    ⟨⟨false, none, none, none, none⟩,
     ⟨true, some ⟨"17.3.2", "sw1", "FDO123", "C9300-24T",
        some "flash:cat9k.bin", "ROM17"⟩,
      "Disabled", some "flash:packages.conf", some 3000⟩⟩
    (fun _ => "Yes") "10.1.1.1" none 100 200 _ rfl).1

end IOSXE
